import Mathlib

/-!
Shallow embedding of the phonebook manager (src/main.py) and verification
of the spec's claims about it.

Modelling conventions:
* A Python dict value is `PyVal` (an int or a string); `save_phonebook`
  assigns an integer into the `ID` slot while `load_phonebook` reads the
  slot back as a string, so both variants occur in memory.
* The CSV layer is abstracted as a list of rows, each row a list of field
  strings, in column order; Python's `csv` module is a faithful codec
  between rows-of-strings and the file's bytes, so a file is
  `List (List String)` here, and a missing file is `none`.
* Interactive console input (`input(...)`) is factored out as an explicit
  argument of the modelled operation; printing is modelled as the returned
  value that the code would print.
* Character-class primitives (`str.strip`, `str.lower`, `\d`) are modelled
  on the ASCII range; Python additionally handles non-ASCII Unicode
  classes, uniformly on the code side and the spec side of every claim, so
  the restriction does not affect any claim checked here.
-/

namespace Phonebook

/-- A value stored in one slot of a record's dictionary: Python code in
src/main.py stores strings everywhere except `save_phonebook`, which
stores an `int` into the `ID` slot (line 37). -/
inductive PyVal where
  | vint (n : Int)
  | vstr (s : String)
deriving DecidableEq

/-- One phonebook entry, the dict `Dict[str, str]` of src/main.py with the
seven-column schema of save_phonebook (line 33).  `id` is the `ID` slot:
absent (`none`) for a freshly input contact, an integer after a save, a
string after a load. The remaining six slots are always strings. -/
structure ContactRecord where
  id : Option PyVal
  lastName : String
  firstName : String
  patronymic : String
  organization : String
  workPhone : String
  personalPhone : String
deriving DecidableEq

/-- Header row written by save_phonebook (src/main.py line 33). -/
def fieldnames : List String :=
  ["ID", "Фамилия", "Имя", "Отчество", "Организация", "Телефон рабочий", "Телефон личный"]

/-- The CSV row written for one record carrying 1-based index `idx`
(src/main.py lines 36-38): the `ID` column is `str(idx)` and the six data
columns follow in header order. -/
def rowOf (idx : Nat) (r : ContactRecord) : List String :=
  [toString idx, r.lastName, r.firstName, r.patronymic, r.organization,
   r.workPhone, r.personalPhone]

/-- Effect of line 37 of src/main.py on the in-memory record: the `ID`
slot is overwritten with the Python int `idx`. -/
def setId (idx : Nat) (r : ContactRecord) : ContactRecord :=
  { r with id := some (PyVal.vint (idx : Int)) }

/-- Rows produced by `for idx, entry in enumerate(phonebook, start=1)`
(src/main.py lines 36-38), starting at index `n`. -/
def saveRows : Nat → List ContactRecord → List (List String)
  | _, [] => []
  | n, r :: rs => rowOf n r :: saveRows (n + 1) rs

/-- In-memory mutation performed by the same loop: each record's `ID` slot
becomes the integer of its 1-based position (src/main.py line 37). -/
def saveUpdate : Nat → List ContactRecord → List ContactRecord
  | _, [] => []
  | n, r :: rs => setId n r :: saveUpdate (n + 1) rs

/-- save_phonebook (src/main.py lines 25-38): writes the header followed
by one row per record in collection order, assigning each record's `ID`
as its 1-based position.  Result: (file written, records as mutated). -/
def save_phonebook (pb : List ContactRecord) :
    List (List String) × List ContactRecord :=
  (fieldnames :: saveRows 1 pb, saveUpdate 1 pb)

/-- One row consumed by `csv.DictReader` under the standard header
(src/main.py lines 19-21): the seven columns become the seven dict slots,
every value a string.  A row of any other width is not representable as a
`ContactRecord` in this embedding. -/
def parseRow (row : List String) : Option ContactRecord :=
  match row with
  | [i, ln, fn, pa, org, wp, pp] =>
      some { id := some (PyVal.vstr i), lastName := ln, firstName := fn,
             patronymic := pa, organization := org, workPhone := wp,
             personalPhone := pp }
  | _ => none

/-- The DictReader loop of src/main.py lines 20-21, row by row. -/
def parseRows : List (List String) → Option (List ContactRecord)
  | [] => some []
  | row :: rest =>
      match parseRow row, parseRows rest with
      | some r, some rs => some (r :: rs)
      | _, _ => none

/-- load_phonebook (src/main.py lines 9-22).  `none` input models a
missing file (the `os.path.exists` guard on line 17): the result is the
empty list, not an error.  A present file is its header row followed by
data rows; a file whose shape does not fit the `ContactRecord` schema
yields `none` (its dicts are not representable in this embedding). -/
def load_phonebook (file : Option (List (List String))) :
    Option (List ContactRecord) :=
  match file with
  | none => some []
  | some [] => some []
  | some (hdr :: rows) =>
      if hdr = fieldnames then parseRows rows else none

/-- The record list that loading a just-saved file produces: each record
keeps its six data fields and carries, as `ID`, the decimal string of its
1-based position starting at `n`. -/
def loadedForm : Nat → List ContactRecord → List ContactRecord
  | _, [] => []
  | n, r :: rs =>
      { r with id := some (PyVal.vstr (toString n)) } :: loadedForm (n + 1) rs

/-- The record form produced by loading position `idx`: same data fields,
`ID` slot the decimal string of `idx`. -/
def loadId (idx : Nat) (r : ContactRecord) : ContactRecord :=
  { r with id := some (PyVal.vstr (toString idx)) }

/-- Python sequence-slice bound normalization for `s[a:b]` on a sequence
of length `n`: a negative bound counts from the end and is clamped at 0,
a non-negative bound is clamped at `n`. -/
def pyBound (n : Nat) (i : Int) : Nat :=
  (if i < 0 then max (i + n) 0 else min i n).toNat

/-- Python slice `l[a:b]`. -/
def pySlice {α : Type} (l : List α) (a b : Int) : List α :=
  (l.take (pyBound l.length b)).drop (pyBound l.length a)

/-- display_page (src/main.py lines 41-55): computes
`start = (page_num - 1) * entries_per_page`, `end = start + entries_per_page`
and takes the Python slice `phonebook[start:end]`; the model returns the
list of entries the code prints. -/
def display_page (page_num entries_per_page : Int)
    (pb : List ContactRecord) : List ContactRecord :=
  let start_idx := (page_num - 1) * entries_per_page
  let end_idx := start_idx + entries_per_page
  pySlice pb start_idx end_idx

/-- Shape test for the regex core `\+7 \(\d\d\d\) \d\d\d-\d\d-\d\d` of
validate_phone_number (src/main.py line 69), on the code-point sequence;
`\d` is modelled as the ASCII digits (Python's `\d` also accepts other
Unicode decimal digits, on both sides of the claim alike). -/
def phoneChars : List Char → Bool
  | ['+', '7', ' ', '(', a, b, c, ')', ' ', d, e, f, '-', g, h, '-', i, j] =>
      a.isDigit && b.isDigit && c.isDigit && d.isDigit && e.isDigit &&
      f.isDigit && g.isDigit && h.isDigit && i.isDigit && j.isDigit
  | _ => false

/-- validate_phone_number (src/main.py lines 58-70):
`bool(re.match(r'^\+7 \(\d{3}\) \d{3}-\d{2}-\d{2}$', s))`.  `re.match`
anchors at the start; the trailing `$` of the pattern matches at the end
of the string or just before one newline that ends the string, so a value
consisting of the pattern followed by a single final newline is also
accepted. -/
def validate_phone_number (s : String) : Bool :=
  phoneChars s.toList ||
    (s.toList.getLast? == some '\n' && phoneChars s.toList.dropLast)

/-- Modelled from the spec sentence that validatePhone is true iff the
value FULLY matches the anchored pattern: the entire string, including
any trailing newline, must fit the pattern. -/
def specPhoneFullMatch (s : String) : Bool :=
  phoneChars s.toList

/-- Structural reading of the phone pattern: the string is exactly
`+7 (DDD) DDD-DD-DD` with each `D` a digit. -/
def PhoneShape (s : String) : Prop :=
  ∃ a b c d e f g h i j : Char,
    (a.isDigit ∧ b.isDigit ∧ c.isDigit ∧ d.isDigit ∧ e.isDigit ∧
     f.isDigit ∧ g.isDigit ∧ h.isDigit ∧ i.isDigit ∧ j.isDigit) ∧
    s.toList = ['+', '7', ' ', '(', a, b, c, ')', ' ',
                d, e, f, '-', g, h, '-', i, j]

/-- Python `str.strip()` on the code-point list: whitespace is removed
from both ends (modelled for the ASCII whitespace characters). -/
def stripList (l : List Char) : List Char :=
  ((l.dropWhile Char.isWhitespace).reverse.dropWhile Char.isWhitespace).reverse

/-- Python `s.strip()`. -/
def pyStrip (s : String) : String :=
  ⟨stripList s.toList⟩

/-- The `ValueError` raised by validate_string_input (src/main.py
line 90), carrying the field name from its message. -/
structure EmptyFieldError where
  fieldName : String
deriving DecidableEq

/-- validate_string_input (src/main.py lines 73-90): returns the stripped
input when it is non-empty, otherwise raises `ValueError` naming the
field. -/
def validate_string_input (input_str field_name : String) :
    Except EmptyFieldError String :=
  if pyStrip input_str ≠ "" then
    Except.ok (pyStrip input_str)
  else
    Except.error ⟨field_name⟩

/-- Python `str.lower()` on one character, modelled on the ASCII range
(Python also lowercases non-ASCII letters; every use in the claims
applies the same map on both sides, so the restriction is uniform). -/
def pyLowerChar : Char → Char
  | 'A' => 'a' | 'B' => 'b' | 'C' => 'c' | 'D' => 'd' | 'E' => 'e'
  | 'F' => 'f' | 'G' => 'g' | 'H' => 'h' | 'I' => 'i' | 'J' => 'j'
  | 'K' => 'k' | 'L' => 'l' | 'M' => 'm' | 'N' => 'n' | 'O' => 'o'
  | 'P' => 'p' | 'Q' => 'q' | 'R' => 'r' | 'S' => 's' | 'T' => 't'
  | 'U' => 'u' | 'V' => 'v' | 'W' => 'w' | 'X' => 'x' | 'Y' => 'y'
  | 'Z' => 'z'
  | c => c

/-- Python `s.lower()`. -/
def pyLower (s : String) : String :=
  ⟨s.toList.map pyLowerChar⟩

/-- Whether `needle` occurs at the head of `hay`. -/
def strStartsAt : List Char → List Char → Bool
  | [], _ => true
  | _ :: _, [] => false
  | a :: as, b :: bs => (a = b) && strStartsAt as bs

/-- Whether `needle` occurs contiguously anywhere in `hay`. -/
def subList (needle : List Char) : List Char → Bool
  | [] => needle.isEmpty
  | b :: bs => strStartsAt needle (b :: bs) || subList needle bs

/-- Python's substring test `needle in hay` on strings. -/
def pyIn (needle hay : String) : Bool :=
  subList needle.toList hay.toList

/-- The sequence `entry.values()` of a record's dict: the `ID` slot when
present, then the six data fields.  (A record loaded from file has `ID`
first; a record freshly saved this session instead gains its integer `ID`
at the end of the dict — the difference only affects which element a
short-circuiting scan reaches first, and no claim checked here depends on
it.) -/
def valuesList (r : ContactRecord) : List PyVal :=
  (match r.id with | none => [] | some v => [v]) ++
  [PyVal.vstr r.lastName, PyVal.vstr r.firstName, PyVal.vstr r.patronymic,
   PyVal.vstr r.organization, PyVal.vstr r.workPhone, PyVal.vstr r.personalPhone]

/-- The generator `any(search_term in value.lower() for value in
entry.values())` (src/main.py line 188), with Python's short-circuit:
`none` models the `AttributeError` raised when `.lower()` hits a
non-string value (the integer `ID` written by save_phonebook). -/
def entryAny (term : String) : List PyVal → Option Bool
  | [] => some false
  | PyVal.vint _ :: _ => none
  | PyVal.vstr s :: rest =>
      if pyIn term (pyLower s) then some true else entryAny term rest

/-- The results loop of search_entries (src/main.py lines 186-189). -/
def searchFilter (term : String) : List ContactRecord → Option (List ContactRecord)
  | [] => some []
  | r :: rs =>
      match entryAny term (valuesList r), searchFilter term rs with
      | some true, some out => some (r :: out)
      | some false, some out => some out
      | _, _ => none

/-- Outcome of one search interaction. -/
inductive SearchOutcome where
  | emptyQuery
  | typeError
  | results (rs : List ContactRecord)
deriving DecidableEq

/-- search_entries (src/main.py lines 171-196) on one entered term: the
input is lowercased (line 179); a term that is blank after stripping is
rejected (the console loop re-prompts and prints the error text of line
182 — the spec's EmptyQueryError); otherwise the record list is scanned
and the matches are returned in collection order.  `typeError` is the
`AttributeError` raised when a record holds the integer `ID` written by
save_phonebook. -/
def search_entries (pb : List ContactRecord) (rawTerm : String) : SearchOutcome :=
  let search_term := pyLower rawTerm
  if pyStrip search_term = "" then
    SearchOutcome.emptyQuery
  else
    match searchFilter search_term pb with
    | some rs => SearchOutcome.results rs
    | none => SearchOutcome.typeError

/-- The claim's matching test, following the spec's words: the lowercased
term is a substring of the lowercased value of at least one field. -/
def specRecordMatches (term : String) (r : ContactRecord) : Bool :=
  (valuesList r).any fun v =>
    match v with
    | PyVal.vstr s => pyIn (pyLower term) (pyLower s)
    | PyVal.vint _ => false

/-- Whether a dict slot holds a string. -/
def isStrVal : PyVal → Bool
  | PyVal.vint _ => false
  | PyVal.vstr _ => true

/-- A record whose stored values are all strings, as the source's own
type annotation `List[Dict[str, str]]` declares and as load_phonebook
produces (the six data slots are strings by construction; only the `ID`
slot can hold an integer, written there by save_phonebook). -/
def stringValued (r : ContactRecord) : Bool :=
  match r.id with
  | some (PyVal.vint _) => false
  | _ => true

/-- A successful result of input_contact_data (src/main.py lines 93-126):
all six data fields, collected and validated; the dict has no `ID` key. -/
structure ContactData where
  lastName : String
  firstName : String
  patronymic : String
  organization : String
  workPhone : String
  personalPhone : String
deriving DecidableEq

/-- The dict returned by input_contact_data, as a record: no `ID` slot. -/
def newRecord (cd : ContactData) : ContactRecord :=
  { id := none, lastName := cd.lastName, firstName := cd.firstName,
    patronymic := cd.patronymic, organization := cd.organization,
    workPhone := cd.workPhone, personalPhone := cd.personalPhone }

/-- add_entry (src/main.py lines 129-140) with the interactive input
factored out: `none` models input_contact_data returning the falsy `{}`
(nothing is appended, nothing saved); `some cd` appends the new record at
the tail and calls save_phonebook.  Result: (collection afterwards, file
written if any). -/
def add_entry (pb : List ContactRecord) (cd : Option ContactData) :
    List ContactRecord × Option (List (List String)) :=
  match cd with
  | none => (pb, none)
  | some c =>
      let p := save_phonebook (pb ++ [newRecord c])
      (p.2, some p.1)

/-- The dict argument of `entry.update(contact_data)` (src/main.py line
162): any subset of the six data keys may be present (input_contact_data
itself produces either all six or the empty dict; `dict.update` merges
whatever keys are present).  No `ID` key ever occurs in it. -/
structure FieldOverrides where
  lastName : Option String
  firstName : Option String
  patronymic : Option String
  organization : Option String
  workPhone : Option String
  personalPhone : Option String
deriving DecidableEq

/-- Python `entry.update(contact_data)` (src/main.py line 162): each key
present in the overrides replaces the record's slot; absent keys leave
the slot, and the `ID` slot, untouched. -/
def ContactRecord.update (r : ContactRecord) (o : FieldOverrides) : ContactRecord :=
  { r with
    lastName := o.lastName.getD r.lastName,
    firstName := o.firstName.getD r.firstName,
    patronymic := o.patronymic.getD r.patronymic,
    organization := o.organization.getD r.organization,
    workPhone := o.workPhone.getD r.workPhone,
    personalPhone := o.personalPhone.getD r.personalPhone }

/-- edit_entry (src/main.py lines 143-168) with the interactive input
factored out.  The user's 1-based index is decremented (line 153) and
bounds-checked (line 155).  In range: `none` overrides model
input_contact_data returning the falsy `{}` (no update, no save); `some o`
merges the overrides into the targeted record in place and calls
save_phonebook.  Out of range: the error message of line 166 — the spec's
IndexOutOfRangeError — and nothing else happens.  Result: (collection
afterwards, file written if any, whether the index was accepted).  The
inner lookup cannot miss after the bounds check; its fallback arm exists
only for totality. -/
def edit_entry (pb : List ContactRecord) (entry_idx : Int)
    (cd : Option FieldOverrides) :
    List ContactRecord × Option (List (List String)) × Bool :=
  let i := entry_idx - 1
  if 0 ≤ i ∧ i < (pb.length : Int) then
    match cd with
    | none => (pb, none, true)
    | some o =>
        match pb[i.toNat]? with
        | some e =>
            let p := save_phonebook (pb.set i.toNat (e.update o))
            (p.2, some p.1, true)
        | none => (pb, none, true)
  else
    (pb, none, false)

/-- A record satisfying the data-model invariants the spec calls "valid":
the six textual fields are non-empty after trimming and both phones pass
validate_phone_number. -/
def validRecord (r : ContactRecord) : Bool :=
  (pyStrip r.lastName ≠ "" : Bool) && (pyStrip r.firstName ≠ "" : Bool) &&
  (pyStrip r.patronymic ≠ "" : Bool) && (pyStrip r.organization ≠ "" : Bool) &&
  validate_phone_number r.workPhone && validate_phone_number r.personalPhone

/-- Sample record in the form load_phonebook produces (string `ID`). -/
def demoRec1 : ContactRecord :=
  { id := some (PyVal.vstr "1"), lastName := "Ivanov", firstName := "Ivan",
    patronymic := "Ivanovich", organization := "Ivanov LLC",
    workPhone := "+7 (123) 456-78-90", personalPhone := "+7 (999) 111-22-33" }

/-- Sample freshly input record (no `ID` slot yet). -/
def demoRec2 : ContactRecord :=
  { id := none, lastName := "Petrova", firstName := "Anna",
    patronymic := "Sergeevna", organization := "Acme",
    workPhone := "+7 (495) 000-11-22", personalPhone := "+7 (916) 333-44-55" }

/-- Sample two-record collection. -/
def demoPB : List ContactRecord := [demoRec1, demoRec2]

/-- Sample one-record collection, distinct from demoPB. -/
def demoPB2 : List ContactRecord := [demoRec2]

/-- Sample five-record collection for the pagination check. -/
def demoPB5 : List ContactRecord :=
  [demoRec1, demoRec2,
   { demoRec2 with lastName := "Sidorov" },
   { demoRec2 with lastName := "Kuznetsov" },
   { demoRec2 with lastName := "Smirnov" }]

/-- Sample successful input_contact_data result. -/
def demoCD : ContactData :=
  { lastName := "Orlov", firstName := "Pavel", patronymic := "Olegovich",
    organization := "Orbit", workPhone := "+7 (812) 555-66-77",
    personalPhone := "+7 (921) 888-99-00" }

/-- Sample partial overrides: only the organization is replaced. -/
def demoOv : FieldOverrides :=
  { lastName := none, firstName := none, patronymic := none,
    organization := some "New Org", workPhone := none, personalPhone := none }

/-! Helper lemmas about the persistence loop. -/

theorem saveUpdate_length :
    ∀ (pb : List ContactRecord) (n : Nat), (saveUpdate n pb).length = pb.length := by
  intro pb
  induction pb with
  | nil => intro n; rfl
  | cons r rs ih => intro n; simp [saveUpdate, ih]

theorem saveUpdate_getElem :
    ∀ (pb : List ContactRecord) (n j : Nat),
      (saveUpdate n pb)[j]? = (pb[j]?).map (setId (n + j)) := by
  intro pb
  induction pb with
  | nil => intro n j; simp [saveUpdate]
  | cons r rs ih =>
      intro n j
      cases j with
      | zero => simp [saveUpdate]
      | succ k =>
          have harith : n + 1 + k = n + (k + 1) := by omega
          simp only [saveUpdate, List.getElem?_cons_succ, ih (n + 1) k, harith]

theorem loadedForm_length :
    ∀ (pb : List ContactRecord) (n : Nat), (loadedForm n pb).length = pb.length := by
  intro pb
  induction pb with
  | nil => intro n; rfl
  | cons r rs ih => intro n; simp [loadedForm, ih]

theorem loadedForm_getElem :
    ∀ (pb : List ContactRecord) (n j : Nat),
      (loadedForm n pb)[j]? = (pb[j]?).map (loadId (n + j)) := by
  intro pb
  induction pb with
  | nil => intro n j; simp [loadedForm]
  | cons r rs ih =>
      intro n j
      cases j with
      | zero => simp [loadedForm, loadId]
      | succ k =>
          have harith : n + 1 + k = n + (k + 1) := by omega
          simp only [loadedForm, List.getElem?_cons_succ, ih (n + 1) k, harith]

theorem parseRows_saveRows :
    ∀ (pb : List ContactRecord) (n : Nat),
      parseRows (saveRows n pb) = some (loadedForm n pb) := by
  intro pb
  induction pb with
  | nil => intro n; rfl
  | cons r rs ih =>
      intro n
      simp [saveRows, parseRows, parseRow, rowOf, loadedForm, ih]

theorem load_of_save (pb : List ContactRecord) :
    load_phonebook (some (save_phonebook pb).1) = some (loadedForm 1 pb) := by
  simp [load_phonebook, save_phonebook, parseRows_saveRows]

/-! Helper lemmas about stripping and lowercasing. -/

theorem dropWhile_forall_iff {p : Char → Bool} {l : List Char} :
    (∀ c ∈ l.dropWhile p, p c = true) ↔ (∀ c ∈ l, p c = true) := by
  constructor
  · intro h c hc
    have hsplit := List.takeWhile_append_dropWhile p l
    rcases List.mem_append.mp (hsplit ▸ hc) with h1 | h2
    · exact List.mem_takeWhile_imp h1
    · exact h c h2
  · intro h c hc
    exact h c (List.dropWhile_subset p hc)

theorem stripList_eq_nil_iff {l : List Char} :
    stripList l = [] ↔ ∀ c ∈ l, c.isWhitespace = true := by
  unfold stripList
  rw [List.reverse_eq_nil_iff, List.dropWhile_eq_nil_iff]
  simp only [List.mem_reverse]
  exact dropWhile_forall_iff

theorem pyStrip_eq_empty_iff {s : String} :
    pyStrip s = "" ↔ ∀ c ∈ s.toList, c.isWhitespace = true := by
  unfold pyStrip
  rw [show ("" : String) = ⟨[]⟩ from rfl, String.ext_iff]
  exact stripList_eq_nil_iff

theorem isWhitespace_pyLowerChar (c : Char) :
    (pyLowerChar c).isWhitespace = c.isWhitespace := by
  unfold pyLowerChar
  split <;> rfl

theorem pyStrip_pyLower_eq_empty_iff {s : String} :
    pyStrip (pyLower s) = "" ↔ pyStrip s = "" := by
  rw [pyStrip_eq_empty_iff, pyStrip_eq_empty_iff]
  simp only [show (pyLower s).toList = s.toList.map pyLowerChar from rfl, List.mem_map]
  constructor
  · intro h c hc
    have hx := h (pyLowerChar c) ⟨c, hc, rfl⟩
    rwa [isWhitespace_pyLowerChar] at hx
  · rintro h x ⟨c, hc, rfl⟩
    rw [isWhitespace_pyLowerChar]
    exact h c hc

/-! Helper lemmas about the search scan. -/

theorem entryAny_all_strings (t : String) :
    ∀ vs : List PyVal, (∀ v ∈ vs, isStrVal v = true) →
      entryAny t vs = some (vs.any fun v =>
        match v with
        | PyVal.vstr s => pyIn t (pyLower s)
        | PyVal.vint _ => false) := by
  intro vs
  induction vs with
  | nil => intro _; rfl
  | cons v rest ih =>
      intro h
      cases v with
      | vint n =>
          have hx := h _ (List.mem_cons_self _ _)
          simp [isStrVal] at hx
      | vstr s =>
          have hrest := ih fun x hx => h x (List.mem_cons_of_mem _ hx)
          by_cases hm : pyIn t (pyLower s) = true
          · simp [entryAny, hm]
          · simp only [entryAny, hrest]
            simp [hm]

theorem valuesList_strings {r : ContactRecord} (h : stringValued r = true) :
    ∀ v ∈ valuesList r, isStrVal v = true := by
  intro v hv
  rcases hr : r.id with _ | pv
  · simp [valuesList, hr] at hv
    rcases hv with rfl | rfl | rfl | rfl | rfl | rfl <;> rfl
  · cases pv with
    | vint n => simp [stringValued, hr] at h
    | vstr s =>
        simp [valuesList, hr] at hv
        rcases hv with rfl | rfl | rfl | rfl | rfl | rfl | rfl <;> rfl

theorem searchFilter_all_strings (t : String) :
    ∀ pb : List ContactRecord, (∀ r ∈ pb, stringValued r = true) →
      searchFilter t pb = some (pb.filter fun r => (valuesList r).any fun v =>
        match v with
        | PyVal.vstr s => pyIn t (pyLower s)
        | PyVal.vint _ => false) := by
  intro pb
  induction pb with
  | nil => intro _; rfl
  | cons r rs ih =>
      intro h
      have hr := h r (List.mem_cons_self _ _)
      have hrs := ih fun x hx => h x (List.mem_cons_of_mem _ hx)
      have he := entryAny_all_strings t (valuesList r) (valuesList_strings hr)
      by_cases hm : ((valuesList r).any fun v =>
          match v with
          | PyVal.vstr s => pyIn t (pyLower s)
          | PyVal.vint _ => false) = true
      · simp only [searchFilter, he, hrs, hm, List.filter_cons]
        simp [hm]
      · simp only [searchFilter, he, hrs, List.filter_cons]
        simp [hm]

/-! Helper lemmas about the phone pattern. -/

theorem phoneChars_shape (cs : List Char) :
    phoneChars cs = true ↔ PhoneShape ⟨cs⟩ := by
  unfold phoneChars PhoneShape
  constructor
  · intro hAll
    revert hAll
    split
    next a b c d e f g h i j =>
      intro hAll
      refine ⟨a, b, c, d, e, f, g, h, i, j, ?_, rfl⟩
      simpa [Bool.and_eq_true, and_assoc] using hAll
    next =>
      intro hAll
      exact absurd hAll (by simp)
  · rintro ⟨a, b, c, d, e, f, g, h, i, j, hdig, heq⟩
    have hcs : cs = ['+', '7', ' ', '(', a, b, c, ')', ' ',
                     d, e, f, '-', g, h, '-', i, j] := heq
    subst hcs
    simp only [Bool.and_eq_true]
    obtain ⟨h1, h2, h3, h4, h5, h6, h7, h8, h9, h10⟩ := hdig
    exact ⟨⟨⟨⟨⟨⟨⟨⟨⟨h1, h2⟩, h3⟩, h4⟩, h5⟩, h6⟩, h7⟩, h8⟩, h9⟩, h10⟩

theorem validate_phone_number_true_iff (s : String) :
    validate_phone_number s = true ↔
      (PhoneShape s ∨ ∃ t : String, PhoneShape t ∧ s.toList = t.toList ++ ['\n']) := by
  unfold validate_phone_number
  rw [Bool.or_eq_true, Bool.and_eq_true]
  constructor
  · rintro (h1 | ⟨hlast, hdrop⟩)
    · exact Or.inl ((phoneChars_shape s.toList).mp h1)
    · right
      rw [beq_iff_eq] at hlast
      have hne : s.toList ≠ [] := by
        intro h0
        rw [h0] at hlast
        simp at hlast
      have hsplit := List.dropLast_concat_getLast hne
      rw [List.getLast?_eq_getLast _ hne, Option.some_inj] at hlast
      refine ⟨⟨s.toList.dropLast⟩, (phoneChars_shape _).mp hdrop, ?_⟩
      rw [show (⟨s.toList.dropLast⟩ : String).toList = s.toList.dropLast from rfl]
      conv_lhs => rw [← hsplit]
      rw [hlast]
  · rintro (h1 | ⟨t, ht, heq⟩)
    · exact Or.inl ((phoneChars_shape s.toList).mpr h1)
    · right
      constructor
      · rw [heq, List.getLast?_concat]
        rfl
      · rw [heq, List.dropLast_concat]
        exact (phoneChars_shape _).mpr ht

theorem loadedForm_stringValued :
    ∀ (pb : List ContactRecord) (n : Nat), ∀ r ∈ loadedForm n pb, stringValued r = true := by
  intro pb
  induction pb with
  | nil => intro n r hr; simp [loadedForm] at hr
  | cons x xs ih =>
      intro n r hr
      simp only [loadedForm, List.mem_cons] at hr
      rcases hr with rfl | h2
      · rfl
      · exact ih (n + 1) r h2

/-! The claims. -/

/-- C1: saving any sequence of N valid records and then loading the file
back yields exactly N records: the loaded list is `loadedForm 1 pb`, its
length is N, and its record at each position is the record saved there
with every data field identical and the ID slot holding the decimal
string of the 1-based position (`loadId`). -/
theorem round_trip_save_load (pb : List ContactRecord)
    (_hv : ∀ r ∈ pb, validRecord r = true) :
    load_phonebook (some (save_phonebook pb).1) = some (loadedForm 1 pb) ∧
    (loadedForm 1 pb).length = pb.length ∧
    ∀ i : Nat, (loadedForm 1 pb)[i]? = (pb[i]?).map (loadId (i + 1)) := by
  refine ⟨load_of_save pb, loadedForm_length pb 1, ?_⟩
  intro i
  simpa [Nat.add_comm] using loadedForm_getElem pb 1 i

/-- Witness for C1 at a concrete valid two-record phonebook. -/
theorem round_trip_save_load_witness :
    load_phonebook (some (save_phonebook demoPB).1) = some (loadedForm 1 demoPB) :=
  (round_trip_save_load demoPB (by decide)).1

/-- C2 (evaluation at the failing input): with a five-record phonebook,
page number -1 and page size 2 give `start_idx = -4`, `end_idx = -2`, and
the Python slice `phonebook[-4:-2]` yields the records at positions 2 and
3 — not the empty sequence the claim mandates for pageNumber < 1. -/
theorem display_page_negative_page_bug :
    display_page (-1) 2 demoPB5 =
      [demoRec2, { demoRec2 with lastName := "Sidorov" }] ∧
    display_page (-1) 2 demoPB5 ≠ [] := by
  constructor
  · decide
  · decide

/-- C3: over a collection whose stored values are all strings (what the
source's own `List[Dict[str, str]]` annotation declares and what
load_phonebook produces), a term that strips to empty is rejected — the
spec's EmptyQueryError — and any other term returns exactly the records
one of whose lowercased field values contains the lowercased term, in
original collection order. -/
theorem search_entries_spec (pb : List ContactRecord) (term : String)
    (hs : ∀ r ∈ pb, stringValued r = true) :
    (pyStrip term = "" → search_entries pb term = SearchOutcome.emptyQuery) ∧
    (pyStrip term ≠ "" →
      search_entries pb term =
        SearchOutcome.results (pb.filter (specRecordMatches term))) := by
  constructor
  · intro h
    have h2 : pyStrip (pyLower term) = "" := pyStrip_pyLower_eq_empty_iff.mpr h
    simp [search_entries, h2]
  · intro h
    have h2 : ¬ pyStrip (pyLower term) = "" := fun hc =>
      h (pyStrip_pyLower_eq_empty_iff.mp hc)
    have hf := searchFilter_all_strings (pyLower term) pb hs
    simp only [search_entries, if_neg h2, hf]
    rfl

/-- Witness for C3: the spec's own example, a record whose organization
is "Ivanov LLC" found by the term "ivanov". -/
theorem search_entries_spec_witness :
    search_entries demoPB "ivanov" =
      SearchOutcome.results (demoPB.filter (specRecordMatches "ivanov")) :=
  (search_entries_spec demoPB "ivanov" (by decide)).2 (by decide)

/-- C4: an edit whose 1-based index lies outside [1, len(records)]
reports the invalid-index outcome and returns with the collection exactly
as it was: no record modified, none added or removed, and no save
performed. -/
theorem edit_entry_out_of_range (pb : List ContactRecord) (entry_idx : Int)
    (cd : Option FieldOverrides)
    (h : entry_idx < 1 ∨ (pb.length : Int) < entry_idx) :
    edit_entry pb entry_idx cd = (pb, none, false) := by
  simp only [edit_entry]
  split
  next hc => exfalso; omega
  next => rfl

/-- Witness for C4 at index 5 on a two-record phonebook. -/
theorem edit_entry_out_of_range_witness :
    edit_entry demoPB 5 none = (demoPB, none, false) :=
  edit_entry_out_of_range demoPB 5 none (Or.inr (by decide))

/-- C5: an edit with a 1-based index inside [1, len] merges exactly the
override fields that are present into the record at that position
(absent fields keep their old values, as does the whole record list
order), keeps the edited record at the same position — so its id after
the save it triggers is that unchanged position — and leaves every other
record's data fields untouched, the save rewriting each ID slot with the
integer of its unchanged 1-based position. -/
theorem edit_entry_in_range_frame (pb : List ContactRecord) (idx : Nat)
    (o : FieldOverrides) (h1 : 1 ≤ idx) (h2 : idx ≤ pb.length) :
    (edit_entry pb (idx : Int) (some o)).2.2 = true ∧
    (edit_entry pb (idx : Int) (some o)).2.1 ≠ none ∧
    (edit_entry pb (idx : Int) (some o)).1.length = pb.length ∧
    (edit_entry pb (idx : Int) (some o)).1[idx - 1]? =
      (pb[idx - 1]?).map (fun r => setId idx (r.update o)) ∧
    ∀ j : Nat, j ≠ idx - 1 →
      (edit_entry pb (idx : Int) (some o)).1[j]? = (pb[j]?).map (setId (j + 1)) := by
  have hlt : idx - 1 < pb.length := by omega
  have hnat : ((idx : Int) - 1).toNat = idx - 1 := by omega
  have hsome : pb[idx - 1]? = some pb[idx - 1] := List.getElem?_eq_getElem hlt
  have key : edit_entry pb (idx : Int) (some o) =
      ((save_phonebook (pb.set (idx - 1) (pb[idx - 1].update o))).2,
       some (save_phonebook (pb.set (idx - 1) (pb[idx - 1].update o))).1,
       true) := by
    simp only [edit_entry, hnat]
    rw [if_pos (by omega :
      (0 : Int) ≤ (idx : Int) - 1 ∧ (idx : Int) - 1 < (pb.length : Int))]
    rw [hsome]
  refine ⟨by rw [key], by rw [key]; simp, ?_, ?_, ?_⟩
  · rw [key]
    simp [save_phonebook, saveUpdate_length]
  · rw [key]
    simp only [save_phonebook]
    rw [saveUpdate_getElem, List.getElem?_set_self hlt, hsome]
    have harith : 1 + (idx - 1) = idx := by omega
    rw [harith]
    rfl
  · intro j hj
    rw [key]
    simp only [save_phonebook]
    rw [saveUpdate_getElem, List.getElem?_set_ne (Ne.symm hj), Nat.add_comm 1 j]

/-- Witness for C5: editing position 2 of the two-record phonebook with
an override of the organization only. -/
theorem edit_entry_in_range_frame_witness :
    (edit_entry demoPB ((2 : Nat) : Int) (some demoOv)).1[2 - 1]? =
      (demoPB[2 - 1]?).map (fun r => setId 2 (r.update demoOv)) :=
  (edit_entry_in_range_frame demoPB 2 demoOv (by decide) (by decide)).2.2.2.1

/-- C6 (amended): validate_phone_number returns true exactly when the
value fully matches the anchored pattern, or is such a full match
followed by one trailing newline (Python's `$` also matches just before
a single newline ending the string); the three cited examples behave as
the claim states.  The function returns only a Bool, so no input is ever
normalized or reformatted. -/
theorem validate_phone_number_characterization :
    (∀ s : String, validate_phone_number s = true ↔
       (PhoneShape s ∨ ∃ t : String, PhoneShape t ∧ s.toList = t.toList ++ ['\n'])) ∧
    validate_phone_number "+7 (123) 456-78-90" = true ∧
    validate_phone_number "+7(123)4567890" = false ∧
    validate_phone_number "+7 (12) 345-67-89" = false :=
  ⟨validate_phone_number_true_iff, by decide, by decide, by decide⟩

/-- C6 counterexample: the pattern followed by one trailing newline is
accepted by the code although it does not fully match the anchored
pattern, refuting the claimed equivalence as stated. -/
theorem validate_phone_trailing_newline :
    validate_phone_number "+7 (123) 456-78-90\n" = true ∧
    specPhoneFullMatch "+7 (123) 456-78-90\n" = false := by
  decide

/-- C7: a string containing at least one non-whitespace character is
returned stripped; a string that strips to empty raises the ValueError
carrying the field name. -/
theorem validate_string_input_spec (s f : String) :
    ((∃ c ∈ s.toList, c.isWhitespace = false) →
        validate_string_input s f = Except.ok (pyStrip s)) ∧
    (pyStrip s = "" → validate_string_input s f = Except.error ⟨f⟩) := by
  constructor
  · intro h
    have hne : pyStrip s ≠ "" := by
      intro hall0
      rw [pyStrip_eq_empty_iff] at hall0
      obtain ⟨c, hc, hcf⟩ := h
      have hct := hall0 c hc
      rw [hct] at hcf
      simp at hcf
    simp [validate_string_input, hne]
  · intro h
    simp [validate_string_input, h]

/-- Witness for C7 on a padded non-blank string. -/
theorem validate_string_input_spec_witness :
    validate_string_input "  ab " "Имя" = Except.ok (pyStrip "  ab ") :=
  (validate_string_input_spec "  ab " "Имя").1 (by decide)

/-- C8: adding a validated record to a collection of size k appends it at
the tail and saves: afterwards the collection holds k+1 records, the new
record sits at position k+1 with `ID` the integer k+1, each of the first
k records keeps its position and data fields, and the file written is
the snapshot of the appended collection. -/
theorem add_entry_appends_and_saves (pb : List ContactRecord) (c : ContactData) :
    (add_entry pb (some c)).1.length = pb.length + 1 ∧
    (add_entry pb (some c)).2 = some (save_phonebook (pb ++ [newRecord c])).1 ∧
    (add_entry pb (some c)).1[pb.length]? =
      some (setId (pb.length + 1) (newRecord c)) ∧
    ∀ j : Nat, j < pb.length →
      (add_entry pb (some c)).1[j]? = (pb[j]?).map (setId (j + 1)) := by
  refine ⟨?_, rfl, ?_, ?_⟩
  · simp [add_entry, save_phonebook, saveUpdate_length]
  · show (saveUpdate 1 (pb ++ [newRecord c]))[pb.length]? = _
    rw [saveUpdate_getElem, List.getElem?_concat_length]
    simp [Nat.add_comm]
  · intro j hj
    show (saveUpdate 1 (pb ++ [newRecord c]))[j]? = _
    rw [saveUpdate_getElem, List.getElem?_append, if_pos hj, Nat.add_comm 1 j]

/-- C9: loading when the backing file does not exist returns the empty
collection, not an error. -/
theorem load_missing_file_empty : load_phonebook none = some [] := rfl

/-- C10: save_phonebook leaves each passed-in record holding its 1-based
position as a Python int in the `ID` slot (`setId`), while loading the
written file back yields records whose every stored value is a string,
the `ID` slot holding the decimal string of the position (`loadId`) — so
the in-memory type of the id differs between the saved records and the
reloaded ones. -/
theorem id_type_asymmetry (pb : List ContactRecord) :
    load_phonebook (some (save_phonebook pb).1) = some (loadedForm 1 pb) ∧
    (∀ i : Nat, ((save_phonebook pb).2)[i]? = (pb[i]?).map (setId (i + 1))) ∧
    (∀ i : Nat, (loadedForm 1 pb)[i]? = (pb[i]?).map (loadId (i + 1))) ∧
    (∀ r ∈ loadedForm 1 pb, stringValued r = true) := by
  refine ⟨load_of_save pb, ?_, ?_, loadedForm_stringValued pb 1⟩
  · intro i
    simpa [Nat.add_comm] using saveUpdate_getElem pb 1 i
  · intro i
    simpa [Nat.add_comm] using loadedForm_getElem pb 1 i

end Phonebook
